import Mathlib

/-!
Shallow embedding of the mutation-application engine of `src/src/Model.js`
(an early redux-orm `Model` class).  JavaScript scalar values are modelled by
the inductive `Value`; JS objects whose values are scalars by association
lists (`Record`); the mutation payload shapes that actually occur in the file
by `Payload`.  Collaborator modules that are not part of the provided source
(`Session.js`, `Meta.js`, `utils.js`, `fields.js`) are modelled from the
spec where a claim needs them; each such definition carries a doc comment
starting with "Modelled from the spec:".
-/

/-- A JavaScript scalar value as it appears in records and payloads of
`Model.js`: a string, a number, a boolean, or `undefined`. -/
inductive Value where
  | str (s : String)
  | num (n : Int)
  | boolV (b : Bool)
  | undef
deriving DecidableEq, Repr

/-- A JS object mapping field names to scalar values, as an association list
in key-insertion order (JS objects preserve insertion order of string keys). -/
abbrev Record : Type := List (String × Value)

/-- Lookup of a property on a JS object: the value stored under the key, or
absence (`undefined` at the call sites that use `Option.getD`). -/
def rGet : Record → String → Option Value
  | [], _ => none
  | (k, v) :: rest, key => if k = key then some v else rGet rest key

/-- Setting a property on a JS object: overwrite the existing key in place,
or append the new key at the end, as JS object literals with computed keys do. -/
def rSet (r : Record) (key : String) (v : Value) : Record :=
  if r.any (fun p => p.1 == key) then
    r.map (fun p => if p.1 == key then (p.1, v) else p)
  else r ++ [(key, v)]

/-- The payload shapes appearing in `Model.js` mutation records: a plain
record object (Create, and the legacy setter in `_initFields`), an object
with `idArr` and `updater` keys (`Model.prototype.update`), or an array of
ids (`Model.prototype.delete`). -/
inductive Payload where
  | recP (r : Record)
  | idUpd (idArr : List Value) (updater : Record)
  | idsP (ids : List Value)
deriving DecidableEq, Repr

/-- JS property access `payload.idArr`: present only on the `idUpd` shape,
`undefined` (here `none`) on every other payload shape. -/
def Payload.idArrProp : Payload → Option (List Value)
  | .idUpd a _ => some a
  | _ => none

/-- JS property access `payload.updater`: present only on the `idUpd` shape,
`undefined` (here `none`) on every other payload shape. -/
def Payload.updaterProp : Payload → Option Record
  | .idUpd _ u => some u
  | _ => none

/-- The mutation type tag from `constants.js` (not in the provided source):
the three tags `getNextState` dispatches on, plus any other tag string
(for example the exported `ORDER`), which falls to the switch default. -/
inductive MutationType where
  | create
  | update
  | delete
  | other (tag : String)
deriving DecidableEq, Repr

/-- A mutation record as appended by `Model.js`: a type tag, a payload, and
the target entity name carried in `meta.name`. -/
structure Mutation where
  type : MutationType
  payload : Payload
  name : String
deriving DecidableEq, Repr

/-- The interface of a `Meta` instance as consumed by `Model.getNextState`:
the branch-algebra operations `insert`, `update`, `delete` and the default
state.  `update` receives the two property projections of the payload, which
may be absent (`undefined`) when the payload has a different shape. -/
structure MetaAlg (B : Type) where
  insert : B → Payload → B
  update : B → Option (List Value) → Option Record → B
  delete : B → Payload → B
  getDefaultState : B

/-- Modelled from the spec: `Session.getMutationsFor(entityName)` of the
missing `Session.js` returns, in original append order, exactly the
subsequence of the log whose target entity name matches. -/
def getMutationsFor (entityName : String) (log : List Mutation) : List Mutation :=
  log.filter (fun m => m.name == entityName)

/-- The body of the `reduce` callback in `Model.getNextState` (lines
194-205): switch on `action.type`, dispatching CREATE to `meta.insert` with
the whole payload, UPDATE to `meta.update` with `payload.idArr` and
`payload.updater`, DELETE to `meta.delete` with the whole payload, and
returning the state unchanged on any other tag. -/
def dispatch {B : Type} (meta : MetaAlg B) (state : B) (action : Mutation) : B :=
  match action.type with
  | .create => meta.insert state action.payload
  | .update => meta.update state action.payload.idArrProp action.payload.updaterProp
  | .delete => meta.delete state action.payload
  | .other _ => state

/-- Embedding of `Model.getNextState` (lines 185-206): when the current
branch state is `undefined` it returns `getDefaultState()` at once; otherwise
it folds the model's mutation subsequence over the current state with the
dispatch switch. -/
def getNextState {B : Type} (meta : MetaAlg B) (entityName : String)
    (curState : Option B) (log : List Mutation) : B :=
  match curState with
  | none => meta.getDefaultState
  | some s => (getMutationsFor entityName log).foldl (dispatch meta) s

/-- Modelled from the spec: the normalized table of one entity type kept by
the missing `Meta.js` — an ordered id array plus an id-to-record map. -/
structure Branch where
  idArray : List Value
  itemsById : List (Value × Record)
deriving DecidableEq, Repr

/-- Modelled from the spec: the default, empty branch state returned by
`Meta.getDefaultState` of the missing `Meta.js`. -/
def Branch.defaultState : Branch := Branch.mk [] []

/-- Merge a partial record field-by-field into an existing record (spec 4.2,
the update merge). -/
def mergeRecord (r : Record) (u : Record) : Record :=
  u.foldl (fun acc p => rSet acc p.1 p.2) r

/-- Modelled from the spec: a fresh id for an insert without a caller-supplied
id — a monotonically increasing integer scoped to the branch. -/
def freshId (s : Branch) : Value :=
  Value.num ((s.itemsById.foldl
    (fun acc p => match p.1 with | Value.num n => max acc n | _ => acc) 0) + 1)

/-- Modelled from the spec: `Meta.insert` of the missing `Meta.js` — uses the
caller-supplied id attribute when present, otherwise a fresh id, and appends
the id to the id array and the record to the map.  The duplicate-id error
path of the spec is modelled as leaving the state unchanged; no theorem below
exercises it.  A non-object payload is left unapplied. -/
def metaInsert (idAttr : String) (s : Branch) (p : Payload) : Branch :=
  match p with
  | .recP r =>
    match rGet r idAttr with
    | some id =>
      if s.itemsById.any (fun q => q.1 == id) then s
      else Branch.mk (s.idArray ++ [id]) (s.itemsById ++ [(id, r)])
    | none =>
      let id := freshId s
      Branch.mk (s.idArray ++ [id]) (s.itemsById ++ [(id, rSet r idAttr id)])
  | _ => s

/-- Modelled from the spec: `Meta.update` of the missing `Meta.js` — for
every id in the selector that is present in the map, merge the updater
field-by-field; absent ids are silently skipped and the id array is
unchanged.  An absent (`undefined`) selector or updater selects nothing. -/
def metaUpdate (s : Branch) (idArr : Option (List Value)) (updater : Option Record) : Branch :=
  match idArr, updater with
  | some ids, some u =>
    Branch.mk s.idArray
      (s.itemsById.map (fun q => if ids.any (fun i => i == q.1) then (q.1, mergeRecord q.2 u) else q))
  | _, _ => s

/-- Modelled from the spec: `Meta.delete` of the missing `Meta.js` — removes
every id of the selector from both the id array and the map; absent ids are
silently skipped.  A non-array payload is left unapplied. -/
def metaDelete (s : Branch) (p : Payload) : Branch :=
  match p with
  | .idsP ids =>
    Branch.mk (s.idArray.filter (fun i => !(ids.any (fun j => j == i))))
      (s.itemsById.filter (fun q => !(ids.any (fun j => j == q.1))))
  | _ => s

/-- The concrete branch algebra assembled from the spec-modelled `Meta.js`
operations, for a given id attribute. -/
def specMeta (idAttr : String) : MetaAlg Branch :=
  MetaAlg.mk (metaInsert idAttr) metaUpdate metaDelete Branch.defaultState

/-- The identity of a model class as far as `Model.js` consumes it: its
`Meta` name and id attribute. -/
structure ModelClass where
  name : String
  idAttribute : String
deriving DecidableEq, Repr

/-- A `Model` instance (entity facade): its class and its captured `_fields`
snapshot (the `props` passed to the constructor). -/
structure Facade where
  cls : ModelClass
  fields : Record
deriving DecidableEq, Repr

/-- Embedding of `Model.prototype.getId`: reads `_fields[idAttribute]`,
yielding `undefined` when the key is absent. -/
def Facade.getId (f : Facade) : Value :=
  (rGet f.fields f.cls.idAttribute).getD Value.undef

/-- Embedding of `Model.prototype.equals` (line 365-367): same class and
same id value. -/
def Facade.equals (a b : Facade) : Bool :=
  (a.cls == b.cls) && (Facade.getId a == Facade.getId b)

/-- The mutable state a facade method touches: the facade itself (its
`_fields` snapshot) and the session's mutation log. -/
abbrev World : Type := Facade × List Mutation

/-- Modelled from the spec: `Session.addMutation` of the missing
`Session.js` appends the record to the log. -/
def sessionAddMutation (log : List Mutation) (m : Mutation) : List Mutation :=
  log ++ [m]

/-- Embedding of the static `Model.addMutation` (lines 328-331): overwrite
the record's `meta.name` with the class name, then append via the session. -/
def classAddMutation (clsName : String) (log : List Mutation) (m : Mutation) : List Mutation :=
  sessionAddMutation log (Mutation.mk m.type m.payload clsName)

/-- Embedding of `Model.prototype.update` (lines 400-411): append one Update
record with payload `idArr = [this.getId()]` and `updater = mergeObj`.  The
facade component is returned unchanged because the method body never writes
`this._fields`. -/
def updateW (w : World) (mergeObj : Record) : World :=
  (w.1, classAddMutation w.1.cls.name w.2
    (Mutation.mk MutationType.update
      (Payload.idUpd [Facade.getId w.1] mergeObj) w.1.cls.name))

/-- Embedding of `Model.prototype.set` (lines 391-393): delegates to
`update` with the single-field object. -/
def setW (w : World) (propertyName : String) (v : Value) : World :=
  updateW w [(propertyName, v)]

/-- Embedding of the plain-field property setter installed by `_initFields`
(lines 65-84): appends one Update record whose payload is the plain object
with the id attribute and the assigned field, not the `idArr`/`updater`
shape.  The facade component is returned unchanged because the setter never
writes `this._fields`. -/
def setPropW (w : World) (fieldName : String) (v : Value) : World :=
  (w.1, sessionAddMutation w.2
    (Mutation.mk MutationType.update
      (Payload.recP (rSet (rSet [] w.1.cls.idAttribute (Facade.getId w.1)) fieldName v))
      w.1.cls.name))

/-- Embedding of `Model.prototype.delete` (lines 417-425): append one Delete
record whose payload is the one-element id array.  The facade component is
returned unchanged because the method body never writes `this._fields`. -/
def deleteW (w : World) : World :=
  (w.1, sessionAddMutation w.2
    (Mutation.mk MutationType.delete (Payload.idsP [Facade.getId w.1]) w.1.cls.name))

/-- Reading a plain field off a facade: the getter installed by `_initFields`
returns the captured `props` value for the field. -/
def readField (f : Facade) (fieldName : String) : Option Value :=
  rGet f.fields fieldName

/-- Modelled from the spec: the field kinds of the missing `fields.js` —
plain attribute, foreign key with a target entity name, many-to-many with a
target entity name (possibly the self-reference marker). -/
inductive FieldKind where
  | attr
  | foreignKey (target : String)
  | manyToMany (target : String)
deriving DecidableEq, Repr

/-- Whether a field kind is the many-to-many variant. -/
def FieldKind.isM2M : FieldKind → Bool
  | .manyToMany _ => true
  | _ => false

/-- Modelled from the spec: `m2mName` of the missing `utils.js` — the
through-entity name derived deterministically from the owning model's name
and the field name. -/
def m2mName (modelName fieldName : String) : String :=
  modelName ++ fieldName

/-- Modelled from the spec: `m2mFromFieldName` of the missing `utils.js` —
the "from" foreign-key field name derived from the owning model's name. -/
def m2mFromFieldName (modelName : String) : String :=
  "from" ++ modelName ++ "Id"

/-- Modelled from the spec: `m2mToFieldName` of the missing `utils.js` — the
"to" foreign-key field name derived from the target model's name. -/
def m2mToFieldName (modelName : String) : String :=
  "to" ++ modelName ++ "Id"

/-- A synthesized through-entity model as far as the claims consume it: its
`Meta` name and its field map (the static `fields` of the generated class). -/
structure ThroughModel where
  name : String
  fields : List (String × FieldKind)
deriving DecidableEq, Repr

/-- Embedding of `Model.getManyToManyModels` (lines 108-145): for each
many-to-many field, resolve the self-reference marker to the declaring
model's name, and push one through model whose name comes from `m2mName` and
whose two foreign-key fields come from `m2mFromFieldName` applied to the
declaring model and `m2mToFieldName` applied to the resolved target. -/
def getManyToManyModels (thisModelName : String)
    (fields : List (String × FieldKind)) : List ThroughModel :=
  fields.filterMap (fun p =>
    match p.2 with
    | FieldKind.manyToMany tgt =>
      let relatedModelName := if tgt = "this" then thisModelName else tgt
      some (ThroughModel.mk (m2mName thisModelName p.1)
        [(m2mFromFieldName thisModelName, FieldKind.foreignKey thisModelName),
         (m2mToFieldName relatedModelName, FieldKind.foreignKey relatedModelName)])
    | _ => none)

/-- A JavaScript value as it can reach `Model.connect`: a `Session`
instance, a boolean, a number, a string, some other object, `undefined`, or
`null`.  Identity numbers keep distinct instances distinct. -/
inductive JSVal where
  | sessionVal (sid : Nat)
  | boolVal (b : Bool)
  | numVal (n : Int)
  | strVal (s : String)
  | objVal (oid : Nat)
  | undef
  | nullVal
deriving DecidableEq, Repr

/-- JS truthiness of a value. -/
def truthy : JSVal → Bool
  | .sessionVal _ => true
  | .boolVal b => b
  | .numVal n => decide (n ≠ 0)
  | .strVal s => decide (s ≠ "")
  | .objVal _ => true
  | .undef => false
  | .nullVal => false

/-- The JS test `v instanceof Session`: true exactly on `Session`
instances; in particular always false on boolean primitives. -/
def instanceOfSession : JSVal → Bool
  | .sessionVal _ => true
  | _ => false

/-- The JS prefix operator `!`, producing a boolean primitive. -/
def notOp (v : JSVal) : JSVal :=
  JSVal.boolVal (!truthy v)

/-- Embedding of `Model.connect` (lines 306-312).  JS parses the guard
`!session instanceof Session` as `(!session) instanceof Session`, so the
negation applies to the argument first and the `instanceof` test sees a
boolean primitive.  On success the model's `_session` is set to the
argument, returned here as the `ok` value. -/
def connect (session : JSVal) : Except String JSVal :=
  if instanceOfSession (notOp session) then
    Except.error "A model can only connect to a Session instance."
  else
    Except.ok session

/-- C1, counterexample: with no current state and one Create mutation for
the entity in the log, `getNextState` returns the untouched default state,
not the default state with the Create folded in via `insert` as the claim
asserts. -/
theorem c1_claim_counterexample :
    getNextState (specMeta "id") "Person" none
        [Mutation.mk MutationType.create (Payload.recP [("id", Value.num 1)]) "Person"]
      ≠ (specMeta "id").insert (specMeta "id").getDefaultState
          (Payload.recP [("id", Value.num 1)]) := by
  decide

/-- C1, amended: when the current branch state is undefined, `getNextState`
returns the default state immediately, applying no mutation from the log —
Create records appended before the first state exists are not reflected. -/
theorem c1_undefined_state_returns_default {B : Type} (meta : MetaAlg B)
    (entityName : String) (log : List Mutation) :
    getNextState meta entityName none log = meta.getDefaultState :=
  rfl

/-- C2, code evaluated at the failing input: assigning `"b"` to the plain
field `name` of a facade with id 1 leaves the snapshot unchanged and appends
exactly one Update record, but that record's payload is the plain object
shape, so the `getNextState` fold — which reads `payload.idArr` and
`payload.updater` — leaves the branch unchanged and the assigned value never
becomes visible, contradicting the claim. -/
theorem c2_legacy_setter_update_lost :
    (setPropW (Facade.mk (ModelClass.mk "Person" "id")
        [("id", Value.num 1), ("name", Value.str "a")], []) "name" (Value.str "b")).1
      = Facade.mk (ModelClass.mk "Person" "id") [("id", Value.num 1), ("name", Value.str "a")]
    ∧ (setPropW (Facade.mk (ModelClass.mk "Person" "id")
        [("id", Value.num 1), ("name", Value.str "a")], []) "name" (Value.str "b")).2
      = [Mutation.mk MutationType.update
          (Payload.recP [("id", Value.num 1), ("name", Value.str "b")]) "Person"]
    ∧ getNextState (specMeta "id") "Person"
        (some (Branch.mk [Value.num 1]
          [(Value.num 1, [("id", Value.num 1), ("name", Value.str "a")])]))
        (setPropW (Facade.mk (ModelClass.mk "Person" "id")
          [("id", Value.num 1), ("name", Value.str "a")], []) "name" (Value.str "b")).2
      = Branch.mk [Value.num 1]
          [(Value.num 1, [("id", Value.num 1), ("name", Value.str "a")])] := by
  refine ⟨rfl, by decide, by decide⟩

/-- C3: with an existing current state, `getNextState` processes the log in
order (splitting the log splits the fold), dispatches a Create record for
the entity to `insert`, an Update record to `update` with the payload's
`idArr` and `updater` projections, a Delete record to `delete`, and skips
records addressed to other entities. -/
theorem c3_fold_in_order_dispatch {B : Type} (meta : MetaAlg B) (n : String) (s : B) :
    (∀ l1 l2 : List Mutation,
      getNextState meta n (some s) (l1 ++ l2)
        = getNextState meta n (some (getNextState meta n (some s) l1)) l2)
    ∧ (∀ p : Payload,
        getNextState meta n (some s) [Mutation.mk MutationType.create p n] = meta.insert s p)
    ∧ (∀ p : Payload,
        getNextState meta n (some s) [Mutation.mk MutationType.update p n]
          = meta.update s p.idArrProp p.updaterProp)
    ∧ (∀ p : Payload,
        getNextState meta n (some s) [Mutation.mk MutationType.delete p n] = meta.delete s p)
    ∧ (∀ m : Mutation, m.name ≠ n → getNextState meta n (some s) [m] = s) := by
  refine ⟨fun l1 l2 => ?_, fun p => ?_, fun p => ?_, fun p => ?_, fun m hm => ?_⟩
  · simp [getNextState, getMutationsFor, List.filter_append, List.foldl_append]
  · simp [getNextState, getMutationsFor, dispatch]
  · simp [getNextState, getMutationsFor, dispatch]
  · simp [getNextState, getMutationsFor, dispatch]
  · have h : (m.name == n) = false := beq_eq_false_iff_ne.mpr hm
    simp [getNextState, getMutationsFor, List.filter, h]

/-- C3, witness: a record addressed to entity Q is skipped when folding for
entity P. -/
theorem c3_witness :
    getNextState (specMeta "id") "P" (some Branch.defaultState)
        [Mutation.mk (MutationType.other "ORDER") (Payload.recP []) "Q"]
      = Branch.defaultState :=
  (c3_fold_in_order_dispatch (specMeta "id") "P" Branch.defaultState).2.2.2.2
    (Mutation.mk (MutationType.other "ORDER") (Payload.recP []) "Q") (by decide)

/-- C4: the `getNextState` fold is a deterministic function of the current
state and the mutation log — equal inputs always produce equal resulting
branches, with no dependence on hidden mutable state. -/
theorem c4_fold_deterministic {B : Type} (meta : MetaAlg B) (n : String)
    (s1 s2 : Option B) (l1 l2 : List Mutation) (hs : s1 = s2) (hl : l1 = l2) :
    getNextState meta n s1 l1 = getNextState meta n s2 l2 := by
  subst hs
  subst hl
  rfl

/-- C4, witness: two runs of the fold on the same concrete state and log
agree. -/
theorem c4_witness :
    getNextState (specMeta "id") "P" (some Branch.defaultState)
        [Mutation.mk MutationType.create (Payload.recP [("id", Value.num 1)]) "P"]
      = getNextState (specMeta "id") "P" (some Branch.defaultState)
          [Mutation.mk MutationType.create (Payload.recP [("id", Value.num 1)]) "P"] :=
  c4_fold_deterministic (specMeta "id") "P"
    (some Branch.defaultState) (some Branch.defaultState)
    [Mutation.mk MutationType.create (Payload.recP [("id", Value.num 1)]) "P"]
    [Mutation.mk MutationType.create (Payload.recP [("id", Value.num 1)]) "P"] rfl rfl

/-- C5: `update(mergeObj)` appends exactly one Update record whose payload
holds the facade's id in `idArr` and the whole merge object as `updater`,
and `set(field, value)` appends exactly one Update record whose updater is
the single-field object; neither touches the facade's snapshot. -/
theorem c5_single_update_record (w : World) (mergeObj : Record)
    (propertyName : String) (v : Value) :
    updateW w mergeObj
      = (w.1, w.2 ++ [Mutation.mk MutationType.update
          (Payload.idUpd [Facade.getId w.1] mergeObj) w.1.cls.name])
    ∧ setW w propertyName v
      = (w.1, w.2 ++ [Mutation.mk MutationType.update
          (Payload.idUpd [Facade.getId w.1] [(propertyName, v)]) w.1.cls.name])
    ∧ (updateW w mergeObj).2.length = w.2.length + 1
    ∧ (setW w propertyName v).2.length = w.2.length + 1 := by
  refine ⟨rfl, rfl, ?_, ?_⟩ <;>
    simp [updateW, setW, classAddMutation, sessionAddMutation]

/-- C6: two facades are `equals` exactly when they have the same model class
and the same id value; the captured field snapshots play no role, so two
facades for the same row with different snapshots compare equal. -/
theorem c6_equals_iff (a b : Facade) :
    Facade.equals a b = true ↔ (a.cls = b.cls ∧ Facade.getId a = Facade.getId b) := by
  simp [Facade.equals, Bool.and_eq_true, beq_iff_eq]

/-- C7: `delete()` appends exactly one Delete record carrying the facade's
id and leaves the facade untouched — its snapshot, every readable field, and
its id are unchanged, so the facade remains readable after the call. -/
theorem c7_delete_frame (w : World) :
    (deleteW w).1 = w.1
    ∧ (deleteW w).2
      = w.2 ++ [Mutation.mk MutationType.delete (Payload.idsP [Facade.getId w.1]) w.1.cls.name]
    ∧ (deleteW w).2.length = w.2.length + 1
    ∧ (∀ k, readField (deleteW w).1 k = readField w.1 k)
    ∧ Facade.getId (deleteW w).1 = Facade.getId w.1 := by
  refine ⟨rfl, rfl, ?_, fun k => rfl, rfl⟩
  simp [deleteW, sessionAddMutation]

/-- Helper for C8: the synthesizer emits exactly one through model per
many-to-many field. -/
theorem m2mLengthAux (a : String) (fs : List (String × FieldKind)) :
    (getManyToManyModels a fs).length
      = (fs.filter (fun p => FieldKind.isM2M p.2)).length := by
  induction fs with
  | nil => rfl
  | cons hd tl ih =>
    obtain ⟨fname, k⟩ := hd
    cases k with
    | attr =>
      simpa [getManyToManyModels, List.filterMap_cons, List.filter_cons,
        FieldKind.isM2M] using ih
    | foreignKey t =>
      simpa [getManyToManyModels, List.filterMap_cons, List.filter_cons,
        FieldKind.isM2M] using ih
    | manyToMany t =>
      simpa [getManyToManyModels, List.filterMap_cons, List.filter_cons,
        FieldKind.isM2M] using ih

/-- C8: the synthesizer emits exactly one through model per many-to-many
field; the through model for field F with target B is named from the
declaring model's name and F, and carries exactly the two foreign-key fields
— the "from" field named from and referencing the declaring model, and the
"to" field named from and referencing the resolved target (the declaring
model itself when the target is the self-reference marker "this"); every
emitted through model arises this way; and the "from" and "to" field names
never collide, in particular not in the self-referencing case. -/
theorem c8_through_model_synthesis (a : String) (fs : List (String × FieldKind)) :
    (getManyToManyModels a fs).length
      = (fs.filter (fun p => FieldKind.isM2M p.2)).length
    ∧ (∀ fname tgt, (fname, FieldKind.manyToMany tgt) ∈ fs →
        ThroughModel.mk (m2mName a fname)
          [(m2mFromFieldName a, FieldKind.foreignKey a),
           (m2mToFieldName (if tgt = "this" then a else tgt),
            FieldKind.foreignKey (if tgt = "this" then a else tgt))]
          ∈ getManyToManyModels a fs)
    ∧ (∀ t ∈ getManyToManyModels a fs, ∃ fname tgt,
        (fname, FieldKind.manyToMany tgt) ∈ fs
        ∧ t = ThroughModel.mk (m2mName a fname)
            [(m2mFromFieldName a, FieldKind.foreignKey a),
             (m2mToFieldName (if tgt = "this" then a else tgt),
              FieldKind.foreignKey (if tgt = "this" then a else tgt))])
    ∧ (∀ rel, m2mFromFieldName a ≠ m2mToFieldName rel) := by
  refine ⟨m2mLengthAux a fs, fun fname tgt h => ?_, fun t ht => ?_, fun rel => ?_⟩
  · simp only [getManyToManyModels, List.mem_filterMap]
    exact ⟨(fname, FieldKind.manyToMany tgt), h, rfl⟩
  · simp only [getManyToManyModels, List.mem_filterMap] at ht
    obtain ⟨⟨fname, k⟩, hp, heq⟩ := ht
    cases k with
    | attr => simp at heq
    | foreignKey t2 => simp at heq
    | manyToMany tgt =>
      refine ⟨fname, tgt, hp, ?_⟩
      simp only [Option.some.injEq] at heq
      exact heq.symm
  · intro h
    have h2 := congrArg String.data h
    simp [m2mFromFieldName, m2mToFieldName, String.data_append] at h2

/-- C8, witness: a many-to-many field tags on model A targeting B yields the
through model named from A and tags with the two expected foreign keys. -/
theorem c8_witness :
    ThroughModel.mk (m2mName "A" "tags")
        [(m2mFromFieldName "A", FieldKind.foreignKey "A"),
         (m2mToFieldName "B", FieldKind.foreignKey "B")]
      ∈ getManyToManyModels "A" [("tags", FieldKind.manyToMany "B")] := by
  have h := (c8_through_model_synthesis "A" [("tags", FieldKind.manyToMany "B")]).2.1
    "tags" "B" (by decide)
  simpa using h

/-- C9: a mutation record whose type tag is none of Create, Update or
Delete leaves the state unchanged in the `getNextState` fold step — the
switch default silently skips it without raising (the step is a total
function). -/
theorem c9_unknown_type_noop {B : Type} (meta : MetaAlg B) (s : B) (m : Mutation)
    (h1 : m.type ≠ MutationType.create) (h2 : m.type ≠ MutationType.update)
    (h3 : m.type ≠ MutationType.delete) :
    dispatch meta s m = s := by
  obtain ⟨t, p, n⟩ := m
  cases t with
  | create => exact absurd rfl h1
  | update => exact absurd rfl h2
  | delete => exact absurd rfl h3
  | other tag => rfl

/-- C9, witness: a record tagged with the unrelated constant ORDER is a
no-op for the fold step. -/
theorem c9_witness :
    dispatch (specMeta "id") Branch.defaultState
        (Mutation.mk (MutationType.other "ORDER") (Payload.recP []) "P")
      = Branch.defaultState :=
  c9_unknown_type_noop (specMeta "id") Branch.defaultState
    (Mutation.mk (MutationType.other "ORDER") (Payload.recP []) "P")
    (by decide) (by decide) (by decide)

/-- C10: for every truthy argument, `Model.connect` never throws and sets
the model's session to the argument — the negation in the guard applies to
the argument before the instanceof test, so the test sees a boolean
primitive and is always false. -/
theorem c10_connect_truthy_never_throws (v : JSVal) (h : truthy v = true) :
    connect v = Except.ok v := by
  simp [connect, notOp, instanceOfSession]

/-- C10, witness: connecting to a plain truthy string succeeds and stores
the string as the session. -/
theorem c10_witness :
    connect (JSVal.strVal "x") = Except.ok (JSVal.strVal "x") :=
  c10_connect_truthy_never_throws (JSVal.strVal "x") (by decide)
